import Mathlib

/-!
# Verification of the hybrid RAG pipeline (elasticsearch-ai-search-chat-demo)

Shallow embedding of the core pipeline logic of the repository:

* `ConversationHistory` with its trimming policy
  (`part2_conversational_ai/02_context_chat.py`, lines 26-50);
* the query-reformulation selection inside `search_products`
  (`02_context_chat.py`, lines 76-99);
* `format_context` of `02_context_chat.py` (lines 137-166) and of
  `03_controlled_responses.py` (lines 113-146);
* the history effects of one iteration of `chat_loop`
  (`02_context_chat.py`, lines 248-285);
* the validation part of `generate_controlled_response`
  (`03_controlled_responses.py`, lines 180-193);
* Reciprocal Rank Fusion scoring, modelled from the spec (the fusion
  itself runs server-side in the retrieval backend).

Python strings are modelled by Lean `String`; dynamic document fields by
`Option`-valued fields (`None` rendering as the literal `"None"`); prices
by a number of cents (`Nat`), so that Python's `{:,.2f}` float formatting
of two-decimal prices is exactly reproduced by `pyMoney`.
-/

namespace ESDemo

/-! ## Python string primitives -/

/-- `leadsWith n h` : the char list `h` starts with `n`. -/
def leadsWith : List Char → List Char → Bool
  | [], _ => true
  | _ :: _, [] => false
  | a :: n, b :: h => a == b && leadsWith n h

/-- `occursIn n h` : `n` occurs as a contiguous run inside `h`
(the semantics of Python's `in` operator on strings). -/
def occursIn (n : List Char) : List Char → Bool
  | [] => leadsWith n []
  | b :: t' => leadsWith n (b :: t') || occursIn n t'

/-- Python's `needle in haystack` on strings. -/
def pyIn (needle haystack : String) : Bool :=
  occursIn needle.data haystack.data

/-- Python's `sep.join(parts)`. -/
def pyJoin (sep : String) : List String → String
  | [] => ""
  | [x] => x
  | x :: y :: xs => x ++ sep ++ pyJoin sep (y :: xs)

/-- Concatenation of a list of strings (repeated `+=` in the source). -/
def concatAll : List String → String
  | [] => ""
  | x :: xs => x ++ concatAll xs

/-- Rendering of an optional string field by a Python f-string:
a missing value prints as the literal `None`. -/
def pyStr : Option String → String
  | some s => s
  | none => "None"

/-- Python's default whitespace set for `str.strip()` / `str.split()`
(ASCII part; sufficient for this development). -/
def isPySpace (c : Char) : Bool :=
  c == ' ' || c == '\t' || c == '\n' || c == '\x0d' || c == '\x0b' || c == '\x0c'

/-- Python's `str.strip()` with no arguments. -/
def pyStrip (s : String) : String :=
  ⟨((s.data.dropWhile isPySpace).reverse.dropWhile isPySpace).reverse⟩

/-- Python's `str.lower()` (ASCII case folding, as used on the
response text before the denylist check). -/
def pyLower (s : String) : String :=
  ⟨s.data.map Char.toLower⟩

/-- Insert a `,` after every third digit of a reversed digit list. -/
def groupRev : List Char → List Char
  | d1 :: d2 :: d3 :: d4 :: rest => d1 :: d2 :: d3 :: ',' :: groupRev (d4 :: rest)
  | l => l

/-- Decimal rendering of `n` with thousands separators (Python `{:,}`). -/
def commaGroup (n : Nat) : String :=
  ⟨(groupRev (toString n).data.reverse).reverse⟩

/-- Two-digit rendering of a remainder `< 100`. -/
def pad2 (r : Nat) : String :=
  if r < 10 then "0" ++ toString r else toString r

/-- Python's `{price:,.2f}` formatting, for a price given in cents. -/
def pyMoney (cents : Nat) : String :=
  commaGroup (cents / 100) ++ "." ++ pad2 (cents % 100)

/-- Python's `l[i:]` slice, including the semantics of negative start
indexes: a negative `i` counts from the end (clamped at 0), and `-0`
is `0`, keeping the whole list. -/
def pySliceFrom (i : Int) (l : List α) : List α :=
  if 0 ≤ i then l.drop i.toNat else l.drop (l.length + i).toNat

/-! ## Data model -/

/-- One chat message, `{"role": ..., "content": ...}`. -/
structure Message where
  role : String
  content : String
deriving DecidableEq, Repr

/-- The `reviews` sub-object of a product document.  Field values are
modelled by their f-string rendering; an absent key renders as `None`. -/
structure Reviews where
  rating : Option String
  count : Option String
  summary : Option String
deriving DecidableEq, Repr

/-- A product document (`hit['_source']`).  Optional fields model the
dynamic `doc.get(...)` / `'key' in doc` accesses of the source; `price`
is in cents. -/
structure Document where
  name : Option String := none
  category : Option String := none
  price : Option Nat := none
  description : Option String := none
  specifications : Option (List (String × String)) := none
  features : Option (List String) := none
  reviews : Option Reviews := none
deriving DecidableEq, Repr

/-! ## ConversationHistory (02_context_chat.py, lines 26-50) -/

/-- `ConversationHistory`: message list plus the configured maximum. -/
structure ConversationHistory where
  messages : List Message
  max_messages : Nat
deriving DecidableEq, Repr

/-- `ConversationHistory.add_message` (lines 33-42): append, then, if the
length exceeds `max_messages`, keep all `system` messages followed by the
slice `other_messages[-(max_messages - len(system_messages)):]`. -/
def ConversationHistory.add_message (h : ConversationHistory)
    (role content : String) : ConversationHistory :=
  let msgs := h.messages ++ [{ role := role, content := content }]
  if msgs.length > h.max_messages then
    let system_messages := msgs.filter (fun m => m.role == "system")
    let other_messages := msgs.filter (fun m => m.role != "system")
    { h with messages := system_messages ++
        pySliceFrom (-((h.max_messages : Int) - system_messages.length)) other_messages }
  else
    { h with messages := msgs }

/-- `ConversationHistory.clear` (lines 48-50). -/
def ConversationHistory.clear (h : ConversationHistory) : ConversationHistory :=
  { h with messages := [] }

/-! ## Query selection in `search_products` (02_context_chat.py, lines 76-99)

The LLM reformulation call is an external collaborator; its outcome is an
`Except Unit String` argument (`Except.error` models a raised exception,
which propagates out of `search_products`, and `Except.ok c` models a
returned completion content `c`). -/

/-- The search query text that `search_products` goes on to use for
retrieval: when the conversation holds more than one `user` message the
stripped reformulation output is used (a reformulation exception
propagates, so no retrieval happens); otherwise the raw query. -/
def search_query_text (conversation : List Message) (query : String)
    (reformulation : Except Unit String) : Except Unit String :=
  if (conversation.filter (fun m => m.role == "user")).length > 1 then
    match reformulation with
    | .error e => .error e
    | .ok content => .ok (pyStrip content)
  else
    .ok query

instance (ε α : Type) [DecidableEq ε] [DecidableEq α] :
    DecidableEq (Except ε α)
  | Except.error a, Except.error b =>
    if h : a = b then isTrue (by rw [h])
    else isFalse (fun hh => by cases hh; exact h rfl)
  | Except.error _, Except.ok _ => isFalse (fun hh => Except.noConfusion hh)
  | Except.ok _, Except.error _ => isFalse (fun hh => Except.noConfusion hh)
  | Except.ok a, Except.ok b =>
    if h : a = b then isTrue (by rw [h])
    else isFalse (fun hh => by cases hh; exact h rfl)

/-- Python's `enumerate(documents, 1)`. -/
def enumFrom (i : Nat) : List α → List (Nat × α)
  | [] => []
  | x :: xs => (i, x) :: enumFrom (i + 1) xs

/-! ## `format_context` of 02_context_chat.py (lines 137-166) -/

namespace ContextChat

/-- One `  ‚Ä¢ {key}: {value}\n` spec line (line 158; the bullet
characters are the exact ones present in the source file). -/
def specLine (kv : String × String) : String :=
  "  ‚Ä¢ " ++ kv.1 ++ ": " ++ kv.2 ++ "\n"

/-- The `Key Specs` section (lines 154-158): emitted when
`'specifications' in doc and doc['specifications']` is truthy, listing
the first 5 pairs (`list(specs.items())[:5]`). -/
def specs_parts (doc : Document) : List String :=
  match doc.specifications with
  | some specs =>
      if specs.isEmpty then []
      else "- Key Specs:\n" :: (specs.take 5).map specLine
  | none => []

/-- The `Rating` line (lines 160-162): emitted when `'reviews' in doc`. -/
def reviews_parts (doc : Document) : List String :=
  match doc.reviews with
  | some reviews =>
      ["- Rating: ", pyStr reviews.rating, "/5.0 (", pyStr reviews.count,
       " reviews)\n"]
  | none => []

/-- The f-string segments of one product block of `format_context`
(lines 145-162), in source order. -/
def product_info_parts (idx : Nat) (doc : Document) : List String :=
  ["\nProduct ", toString idx, ":\n- Name: ", pyStr doc.name,
   "\n- Category: ", pyStr doc.category,
   "\n- Price: $", pyMoney (doc.price.getD 0),
   "\n- Description: ", pyStr doc.description, "\n"] ++
  specs_parts doc ++ reviews_parts doc

/-- One product block of `format_context` (lines 145-162). -/
def product_info (idx : Nat) (doc : Document) : String :=
  concatAll (product_info_parts idx doc)

/-- `format_context` (lines 137-166): the empty-result sentinel, else
the `"\n"`-join of the enumerated product blocks. -/
def format_context (documents : List Document) : String :=
  if documents.isEmpty then
    "No relevant products found in the database."
  else
    pyJoin "\n" ((enumFrom 1 documents).map (fun p => product_info p.1 p.2))

end ContextChat

/-! ## `format_context` and the validator of 03_controlled_responses.py
(lines 113-146 and 148-193) -/

namespace ControlledResponses

/-- One `  â€¢ {key}: {value}\n` spec line (line 134; the bullet
characters are the exact ones present in the source file). -/
def specLine (kv : String × String) : String :=
  "  â€¢ " ++ kv.1 ++ ": " ++ kv.2 ++ "\n"

/-- The `Specifications` section (lines 130-134): emitted when
`'specifications' in doc and doc['specifications']` is truthy, listing
*all* pairs — unlike 02_context_chat.py, line 133 has no `[:5]` slice. -/
def specs_parts (doc : Document) : List String :=
  match doc.specifications with
  | some specs =>
      if specs.isEmpty then []
      else "- Specifications:\n" :: specs.map specLine
  | none => []

/-- The `Features` line (lines 136-137): emitted when `'features' in doc`,
joining the first 5 features. -/
def features_parts (doc : Document) : List String :=
  match doc.features with
  | some features => ["- Features: ", pyJoin ", " (features.take 5), "\n"]
  | none => []

/-- The review lines (lines 139-142): emitted when `'reviews' in doc`. -/
def reviews_parts (doc : Document) : List String :=
  match doc.reviews with
  | some reviews =>
      ["- Customer Rating: ", pyStr reviews.rating, "/5.0 (",
       pyStr reviews.count, " reviews)\n",
       "- Review Summary: ", pyStr reviews.summary, "\n"]
  | none => []

/-- The f-string segments of one product block of `format_context`
(lines 121-144), in source order. -/
def product_info_parts (idx : Nat) (doc : Document) : List String :=
  ["\nProduct ", toString idx, ":\n- Name: ", pyStr doc.name,
   "\n- Category: ", pyStr doc.category,
   "\n- Price: $", pyMoney (doc.price.getD 0),
   "\n- Description: ", pyStr doc.description, "\n"] ++
  specs_parts doc ++ features_parts doc ++ reviews_parts doc

/-- One product block of `format_context` (lines 121-144). -/
def product_info (idx : Nat) (doc : Document) : String :=
  concatAll (product_info_parts idx doc)

/-- `format_context` (lines 113-146). -/
def format_context (documents : List Document) : String :=
  if documents.isEmpty then
    "No relevant products found in the database."
  else
    pyJoin "\n" ((enumFrom 1 documents).map (fun p => product_info p.1 p.2))

/-- The `followed_rules` dictionary computed by
`generate_controlled_response` (lines 183-188). -/
structure FollowedRules where
  includes_price : Bool
  concise : Bool
  no_superlatives : Bool
  factual_tone : Bool
deriving DecidableEq, Repr

/-- The dictionary returned by `generate_controlled_response`
(lines 190-193). -/
structure ControlledResult where
  response : String
  followed_rules : FollowedRules
deriving DecidableEq, Repr

/-- The validation rules of lines 183-188: `"$" in answer`,
`len(answer.split()) < 200`, no denylisted superlative occurs in
`answer.lower()`, and the constant `factual_tone = True`. -/
def followed_rules (answer : String) : FollowedRules :=
  { includes_price := pyIn "$" answer
    concise := ((answer.split isPySpace).filter (fun w => w != "")).length < 200
    no_superlatives := !(["best", "amazing", "incredible", "perfect"].any
        (fun word => pyIn word (pyLower answer)))
    factual_tone := true }

/-- The post-generation part of `generate_controlled_response`
(lines 180-193): the LLM answer is an input; the function reports rule
compliance and returns the answer itself unmodified. -/
def generate_controlled_response (answer : String) : ControlledResult :=
  { response := answer, followed_rules := followed_rules answer }

end ControlledResponses

/-! ## One committed iteration of `chat_loop` (02_context_chat.py,
lines 248-285)

The retrieval call (`search_products`) and the generation call
(`generate_response`) are external collaborators; their outcomes are
`Except` arguments, `Except.error` modelling a raised exception, which
the `except` clause of the loop catches after the point it was raised. -/

/-- History effects of one iteration of `chat_loop` on a non-blank
question: the user message is appended *before* retrieval (line 252); a
retrieval or generation exception leaves the loop with the history as it
then stands; an empty result appends the canned "no information"
assistant turn (lines 258-261); otherwise the generated response is
appended as the assistant turn (line 272). -/
def chat_turn (hist : ConversationHistory) (question : String)
    (retrieval : Except Unit (List Document))
    (generation : Except Unit String) : ConversationHistory :=
  let h1 := hist.add_message "user" question
  match retrieval with
  | .error _ => h1
  | .ok docs =>
    if docs.isEmpty then
      h1.add_message "assistant"
        "I don't have information about that in my product database. Could you rephrase your question?"
    else
      match generation with
      | .error _ => h1
      | .ok response => h1.add_message "assistant" response

/-! ## Reciprocal Rank Fusion (modelled from the spec) -/

/-- Modelled from the spec: 1-based rank of a document in one method's
ranked list, `none` when absent.  The repository requests RRF fusion
server-side (`rank.rrf` in `hybrid_search`, 05_hybrid_search.py lines
70-75), so the backend's ranking is not part of the repository and is
modelled from the spec's description. -/
def rankIn (doc : String) : List String → Option Nat
  | [] => none
  | x :: xs => if x == doc then some 1 else (rankIn doc xs).map (· + 1)

/-- Modelled from the spec: one method's contribution
`1 / (k + rank_m(doc))`, with an absent document contributing `0`. -/
def rrfTerm (k : ℚ) (l : List String) (doc : String) : ℚ :=
  match rankIn doc l with
  | some r => 1 / (k + r)
  | none => 0

/-- Modelled from the spec: the RRF fused score
`Σ_m 1/(k + rank_m(doc))` over the ranked lists of all methods. -/
def rrfScore (k : ℚ) (methods : List (List String)) (doc : String) : ℚ :=
  (methods.map (fun l => rrfTerm k l doc)).sum

/-! ## Lemmas about the string primitives -/

theorem leadsWith_nil {n : List Char} (h : leadsWith n [] = true) : n = [] := by
  cases n with
  | nil => rfl
  | cons a t => simp [leadsWith] at h

theorem leadsWith_append (n b : List Char) : leadsWith n (n ++ b) = true := by
  induction n with
  | nil => rfl
  | cons a t ih => simp [leadsWith, ih]

theorem leadsWith_extend {n h : List Char} (hl : leadsWith n h = true)
    (y : List Char) : leadsWith n (h ++ y) = true := by
  induction n generalizing h with
  | nil => rfl
  | cons a t ih =>
    cases h with
    | nil => simp [leadsWith] at hl
    | cons b h' =>
      simp [leadsWith] at hl ⊢
      exact ⟨hl.1, ih hl.2⟩

theorem occursIn_nil_needle (h : List Char) : occursIn [] h = true := by
  cases h with
  | nil => rfl
  | cons b t => simp [occursIn, leadsWith]

theorem occursIn_of_leadsWith {n h : List Char} (hl : leadsWith n h = true) :
    occursIn n h = true := by
  cases h with
  | nil => exact hl
  | cons b t => simp [occursIn, hl]

theorem occursIn_cons {n t : List Char} (ho : occursIn n t = true) (b : Char) :
    occursIn n (b :: t) = true := by
  simp [occursIn, ho]

theorem occursIn_append_left (x : List Char) {n h : List Char}
    (ho : occursIn n h = true) : occursIn n (x ++ h) = true := by
  induction x with
  | nil => exact ho
  | cons b t ih => exact occursIn_cons ih b

theorem occursIn_append_right {n s : List Char} (ho : occursIn n s = true)
    (y : List Char) : occursIn n (s ++ y) = true := by
  induction s with
  | nil =>
    have hn := leadsWith_nil ho
    subst hn
    exact occursIn_nil_needle y
  | cons b t ih =>
    have ho' := ho
    simp only [occursIn, Bool.or_eq_true] at ho'
    rcases ho' with hl | hr
    · exact occursIn_of_leadsWith (leadsWith_extend hl y)
    · exact occursIn_cons (ih hr) b

theorem leadsWith_map (f : Char → Char) {n h : List Char}
    (hl : leadsWith n h = true) : leadsWith (n.map f) (h.map f) = true := by
  induction n generalizing h with
  | nil => rfl
  | cons a t ih =>
    cases h with
    | nil => simp [leadsWith] at hl
    | cons b h' =>
      simp only [leadsWith, Bool.and_eq_true] at hl
      have hab : a = b := eq_of_beq hl.1
      subst hab
      simp only [List.map_cons, leadsWith, Bool.and_eq_true]
      exact ⟨by simp, ih hl.2⟩

theorem occursIn_map (f : Char → Char) {n h : List Char}
    (ho : occursIn n h = true) : occursIn (n.map f) (h.map f) = true := by
  induction h with
  | nil =>
    have hn := leadsWith_nil ho
    subst hn
    rfl
  | cons b t ih =>
    have ho' := ho
    simp only [occursIn, Bool.or_eq_true] at ho'
    rcases ho' with hl | hr
    · exact occursIn_of_leadsWith (leadsWith_map f hl)
    · exact occursIn_cons (ih hr) (f b)

theorem pyIn_self (s : String) : pyIn s s = true := by
  unfold pyIn
  apply occursIn_of_leadsWith
  have := leadsWith_append s.data []
  simpa using this

theorem pyIn_extend_left (x : String) {n h : String} (ho : pyIn n h = true) :
    pyIn n (x ++ h) = true := by
  unfold pyIn at *
  rw [String.data_append]
  exact occursIn_append_left x.data ho

theorem pyIn_extend_right {n s : String} (ho : pyIn n s = true) (y : String) :
    pyIn n (s ++ y) = true := by
  unfold pyIn at *
  rw [String.data_append]
  exact occursIn_append_right ho y.data

theorem pyIn_of_middle {s : String} (n a b : String) (hs : s = a ++ (n ++ b)) :
    pyIn n s = true := by
  subst hs
  exact pyIn_extend_left a (pyIn_extend_right (pyIn_self n) b)

theorem concatAll_append (xs ys : List String) :
    concatAll (xs ++ ys) = concatAll xs ++ concatAll ys := by
  induction xs with
  | nil =>
    show concatAll ys = "" ++ concatAll ys
    apply String.ext
    simp [String.data_append]
  | cons x xs ih =>
    show x ++ concatAll (xs ++ ys) = (x ++ concatAll xs) ++ concatAll ys
    rw [ih, String.append_assoc]

theorem pyIn_concatAll_between (n s : String) (l₁ l₂ : List String)
    (hn : pyIn n s = true) : pyIn n (concatAll (l₁ ++ s :: l₂)) = true := by
  rw [concatAll_append]
  exact pyIn_extend_left (concatAll l₁)
    (show pyIn n (s ++ concatAll l₂) = true from pyIn_extend_right hn _)

theorem pyIn_concatAll_of_mem {n seg : String} {parts : List String}
    (hseg : seg ∈ parts) (hn : pyIn n seg = true) :
    pyIn n (concatAll parts) = true := by
  induction parts with
  | nil => cases hseg
  | cons x xs ih =>
    cases hseg with
    | head => exact pyIn_extend_right hn _
    | tail _ hmem => exact pyIn_extend_left x (ih hmem)

theorem concatAll_merge (l₁ : List String) (a b : String) (l₂ : List String) :
    concatAll (l₁ ++ a :: b :: l₂) = concatAll (l₁ ++ (a ++ b) :: l₂) := by
  rw [concatAll_append, concatAll_append]
  show concatAll l₁ ++ (a ++ (b ++ concatAll l₂)) =
    concatAll l₁ ++ ((a ++ b) ++ concatAll l₂)
  rw [String.append_assoc]

theorem pyIn_join_of_mem (sep : String) {n x : String} {parts : List String}
    (hx : x ∈ parts) (hn : pyIn n x = true) :
    pyIn n (pyJoin sep parts) = true := by
  induction parts with
  | nil => cases hx
  | cons y ys ih =>
    cases hx with
    | head =>
      cases ys with
      | nil => exact hn
      | cons z zs =>
        exact pyIn_extend_right (pyIn_extend_right hn sep) _
    | tail _ hmem =>
      cases ys with
      | nil => cases hmem
      | cons z zs =>
        exact pyIn_extend_left (y ++ sep) (ih hmem)

theorem head?_append_of_head? {α : Type} {l₁ : List α} (l₂ : List α) {c : α}
    (h : l₁.head? = some c) : (l₁ ++ l₂).head? = some c := by
  cases l₁ <;> simp_all

theorem pyJoin_data_head (sep : String) {x : String} (xs : List String)
    {c : Char} (hx : x.data.head? = some c) :
    (pyJoin sep (x :: xs)).data.head? = some c := by
  cases xs with
  | nil => exact hx
  | cons y ys =>
    show ((x ++ sep ++ pyJoin sep (y :: ys))).data.head? = some c
    rw [String.data_append, String.data_append, List.append_assoc]
    exact head?_append_of_head? _ hx

/-! ## Lemmas about ConversationHistory -/

theorem filter_length_partition (p : α → Bool) (l : List α) :
    (l.filter p).length + (l.filter (fun a => !(p a))).length = l.length := by
  induction l with
  | nil => rfl
  | cons x xs ih =>
    cases hx : p x <;> simp [List.filter_cons, hx] <;> omega

theorem pySliceFrom_subset (i : Int) (l : List α) : pySliceFrom i l ⊆ l := by
  unfold pySliceFrom
  split <;> exact List.drop_subset _ _

theorem add_message_trim (h : ConversationHistory) (role content : String)
    (hc : h.messages.length + 1 > h.max_messages) :
    (h.add_message role content).messages =
      (h.messages ++ [Message.mk role content]).filter (fun m => m.role == "system") ++
      pySliceFrom (-((h.max_messages : Int) -
          ((h.messages ++ [Message.mk role content]).filter
            (fun m => m.role == "system")).length))
        ((h.messages ++ [Message.mk role content]).filter (fun m => m.role != "system")) := by
  unfold ConversationHistory.add_message
  have hlen : (h.messages ++ [Message.mk role content]).length > h.max_messages := by
    simp
    omega
  simp only [hlen, if_pos]

theorem add_message_no_trim (h : ConversationHistory) (role content : String)
    (hc : h.messages.length + 1 ≤ h.max_messages) :
    (h.add_message role content).messages = h.messages ++ [Message.mk role content] := by
  unfold ConversationHistory.add_message
  have hlen : ¬ ((h.messages ++ [Message.mk role content]).length > h.max_messages) := by
    simp
    omega
  simp only [hlen, if_neg, if_false]

theorem add_message_subset (h : ConversationHistory) (role content : String) :
    (h.add_message role content).messages ⊆ h.messages ++ [Message.mk role content] := by
  by_cases hc : h.messages.length + 1 > h.max_messages
  · rw [add_message_trim h role content hc]
    intro m hm
    rcases List.mem_append.mp hm with h1 | h2
    · exact (List.mem_filter.mp h1).1
    · exact (List.mem_filter.mp (pySliceFrom_subset _ _ h2)).1
  · rw [add_message_no_trim h role content (by omega)]
    exact fun m hm => hm

/-! ## Lemmas about enumeration -/

theorem enumFrom_get_mem (i : Nat) (l : List α) (j : Nat) (hj : j < l.length) :
    (i + j, l.get ⟨j, hj⟩) ∈ enumFrom i l := by
  induction l generalizing i j with
  | nil => simp at hj
  | cons x xs ih =>
    cases j with
    | zero => simp [enumFrom]
    | succ j' =>
      have hj' : j' < xs.length := by simpa using hj
      have hmem := ih (i + 1) j' hj'
      have harith : i + (j' + 1) = (i + 1) + j' := by omega
      rw [harith]
      exact List.mem_cons_of_mem _ hmem

/-! ## Lemmas about the product blocks -/

theorem cc_block_head (idx : Nat) (doc : Document) :
    (ContextChat.product_info idx doc).data.head? = some '\x0a' := by
  show (("\nProduct " : String) ++ concatAll (toString idx :: ":\n- Name: " ::
      pyStr doc.name :: "\n- Category: " :: pyStr doc.category ::
      "\n- Price: $" :: pyMoney (doc.price.getD 0) ::
      "\n- Description: " :: pyStr doc.description :: "\n" ::
      (ContextChat.specs_parts doc ++ ContextChat.reviews_parts doc))).data.head? =
    some '\x0a'
  rw [String.data_append]
  exact head?_append_of_head? _ rfl

theorem cr_block_head (idx : Nat) (doc : Document) :
    (ControlledResponses.product_info idx doc).data.head? = some '\x0a' := by
  show (("\nProduct " : String) ++ concatAll (toString idx :: ":\n- Name: " ::
      pyStr doc.name :: "\n- Category: " :: pyStr doc.category ::
      "\n- Price: $" :: pyMoney (doc.price.getD 0) ::
      "\n- Description: " :: pyStr doc.description :: "\n" ::
      (ControlledResponses.specs_parts doc ++ ControlledResponses.features_parts doc ++
        ControlledResponses.reviews_parts doc))).data.head? = some '\x0a'
  rw [String.data_append]
  exact head?_append_of_head? _ rfl

theorem cc_context_head (d : Document) (ds : List Document) :
    (ContextChat.format_context (d :: ds)).data.head? = some '\x0a' := by
  have h1 : ContextChat.format_context (d :: ds) =
      pyJoin "\n" ((enumFrom 1 (d :: ds)).map
        (fun p => ContextChat.product_info p.1 p.2)) := by
    simp [ContextChat.format_context]
  rw [h1]
  exact pyJoin_data_head _ _ (cc_block_head 1 d)

theorem cr_context_head (d : Document) (ds : List Document) :
    (ControlledResponses.format_context (d :: ds)).data.head? = some '\x0a' := by
  have h1 : ControlledResponses.format_context (d :: ds) =
      pyJoin "\n" ((enumFrom 1 (d :: ds)).map
        (fun p => ControlledResponses.product_info p.1 p.2)) := by
    simp [ControlledResponses.format_context]
  rw [h1]
  exact pyJoin_data_head _ _ (cr_block_head 1 d)

theorem cc_shape_name (idx : Nat) (doc : Document) :
    ContextChat.product_info_parts idx doc =
      ["\nProduct ", toString idx] ++ ":\n- Name: " :: pyStr doc.name ::
        ("\n- Category: " :: pyStr doc.category :: "\n- Price: $" ::
         pyMoney (doc.price.getD 0) :: "\n- Description: " ::
         pyStr doc.description :: "\n" ::
         (ContextChat.specs_parts doc ++ ContextChat.reviews_parts doc)) := rfl

theorem cc_shape_price (idx : Nat) (doc : Document) :
    ContextChat.product_info_parts idx doc =
      ["\nProduct ", toString idx, ":\n- Name: ", pyStr doc.name,
       "\n- Category: ", pyStr doc.category] ++ "\n- Price: $" ::
        pyMoney (doc.price.getD 0) ::
        ("\n- Description: " :: pyStr doc.description :: "\n" ::
         (ContextChat.specs_parts doc ++ ContextChat.reviews_parts doc)) := rfl

theorem cc_shape_desc (idx : Nat) (doc : Document) :
    ContextChat.product_info_parts idx doc =
      ["\nProduct ", toString idx, ":\n- Name: ", pyStr doc.name,
       "\n- Category: ", pyStr doc.category, "\n- Price: $",
       pyMoney (doc.price.getD 0)] ++ "\n- Description: " ::
        pyStr doc.description ::
        ("\n" :: (ContextChat.specs_parts doc ++ ContextChat.reviews_parts doc)) := rfl

theorem cr_shape_name (idx : Nat) (doc : Document) :
    ControlledResponses.product_info_parts idx doc =
      ["\nProduct ", toString idx] ++ ":\n- Name: " :: pyStr doc.name ::
        ("\n- Category: " :: pyStr doc.category :: "\n- Price: $" ::
         pyMoney (doc.price.getD 0) :: "\n- Description: " ::
         pyStr doc.description :: "\n" ::
         (ControlledResponses.specs_parts doc ++ ControlledResponses.features_parts doc ++
          ControlledResponses.reviews_parts doc)) := rfl

theorem cr_shape_price (idx : Nat) (doc : Document) :
    ControlledResponses.product_info_parts idx doc =
      ["\nProduct ", toString idx, ":\n- Name: ", pyStr doc.name,
       "\n- Category: ", pyStr doc.category] ++ "\n- Price: $" ::
        pyMoney (doc.price.getD 0) ::
        ("\n- Description: " :: pyStr doc.description :: "\n" ::
         (ControlledResponses.specs_parts doc ++ ControlledResponses.features_parts doc ++
          ControlledResponses.reviews_parts doc)) := rfl

theorem cr_shape_desc (idx : Nat) (doc : Document) :
    ControlledResponses.product_info_parts idx doc =
      ["\nProduct ", toString idx, ":\n- Name: ", pyStr doc.name,
       "\n- Category: ", pyStr doc.category, "\n- Price: $",
       pyMoney (doc.price.getD 0)] ++ "\n- Description: " ::
        pyStr doc.description ::
        ("\n" :: (ControlledResponses.specs_parts doc ++ ControlledResponses.features_parts doc ++
          ControlledResponses.reviews_parts doc)) := rfl

theorem str_header_split (t : String) :
    ("\nProduct " : String) ++ t ++ ":\n- Name: " =
      "\n" ++ (("Product " ++ t ++ ":") ++ "\n- Name: ") := by
  have d1 : ("\nProduct " : String).data = '\x0a' :: ("Product " : String).data := rfl
  have d2 : ((":\n- Name: " : String)).data = ':' :: ("\n- Name: " : String).data := rfl
  have d3 : (("\n" : String)).data = ['\x0a'] := rfl
  have d4 : ((":" : String)).data = [':'] := rfl
  apply String.ext
  simp only [String.data_append, d1, d2, d3, d4, List.cons_append,
    List.append_assoc, List.nil_append, List.singleton_append]

theorem cc_header_in_block (idx : Nat) (doc : Document) :
    pyIn ("Product " ++ toString idx ++ ":")
      (ContextChat.product_info idx doc) = true := by
  unfold ContextChat.product_info
  rw [cc_shape_name idx doc]
  rw [show (["\nProduct ", toString idx] : List String) ++ ":\n- Name: " ::
        pyStr doc.name ::
        ("\n- Category: " :: pyStr doc.category :: "\n- Price: $" ::
         pyMoney (doc.price.getD 0) :: "\n- Description: " ::
         pyStr doc.description :: "\n" ::
         (ContextChat.specs_parts doc ++ ContextChat.reviews_parts doc)) =
      ([] : List String) ++ "\nProduct " :: toString idx :: ":\n- Name: " ::
        (pyStr doc.name ::
         "\n- Category: " :: pyStr doc.category :: "\n- Price: $" ::
         pyMoney (doc.price.getD 0) :: "\n- Description: " ::
         pyStr doc.description :: "\n" ::
         (ContextChat.specs_parts doc ++ ContextChat.reviews_parts doc)) from rfl]
  rw [concatAll_merge, concatAll_merge]
  apply pyIn_concatAll_between
  exact pyIn_of_middle _ "\n" "\n- Name: " (str_header_split (toString idx))

theorem cc_specs_take_ext (idx : Nat) (doc : Document) :
    ContextChat.product_info idx doc =
      ContextChat.product_info idx
        { doc with specifications := doc.specifications.map (fun l => l.take 5) } := by
  unfold ContextChat.product_info ContextChat.product_info_parts
    ContextChat.specs_parts ContextChat.reviews_parts
  cases hs : doc.specifications with
  | none => rfl
  | some l =>
    cases l with
    | nil => rfl
    | cons x xs => simp [List.take_take]

theorem cc_specs_presence (idx : Nat) (doc : Document) (l : List (String × String))
    (hl : doc.specifications = some l) (kv : String × String)
    (hkv : kv ∈ l.take 5) :
    pyIn (ContextChat.specLine kv) (ContextChat.product_info idx doc) = true := by
  have hne : l.isEmpty = false := by
    cases l with
    | nil => simp at hkv
    | cons x xs => rfl
  have hsp : ContextChat.specs_parts doc =
      "- Key Specs:\n" :: (l.take 5).map ContextChat.specLine := by
    unfold ContextChat.specs_parts
    rw [hl]
    simp [hne]
  have hmem : ContextChat.specLine kv ∈ ContextChat.product_info_parts idx doc := by
    unfold ContextChat.product_info_parts
    rw [hsp]
    refine List.mem_append_left _ (List.mem_append_right _ ?_)
    exact List.mem_cons_of_mem _ (List.mem_map_of_mem _ hkv)
  exact pyIn_concatAll_of_mem hmem (pyIn_self _)

theorem validator_no_superlatives (answer : String) (word : String)
    (hw : word ∈ (["best", "amazing", "incredible", "perfect"] : List String))
    (hword : pyIn word answer = true) :
    (ControlledResponses.generate_controlled_response
      answer).followed_rules.no_superlatives = false := by
  have h2 : occursIn (word.data.map Char.toLower) (answer.data.map Char.toLower) = true :=
    occursIn_map _ hword
  have h3 : word.data.map Char.toLower = word.data := by
    have hw' := hw
    simp only [List.mem_cons, List.not_mem_nil, or_false] at hw'
    rcases hw' with rfl | rfl | rfl | rfl <;> decide
  rw [h3] at h2
  have hany : (["best", "amazing", "incredible", "perfect"] : List String).any
      (fun w => pyIn w (pyLower answer)) = true :=
    List.any_eq_true.mpr ⟨word, hw, h2⟩
  simp [ControlledResponses.generate_controlled_response,
    ControlledResponses.followed_rules, hany]

/-! ## Claim theorems -/

/-- Claim C1, counterexample: with configured maximum `N = 1`, appending a
`system` turn and then a `user` turn leaves the history at length 2 — the
slice `other_messages[-(1 - 1):]` is `[-0:]`, the whole list, so the
length bound of the claim is violated when the system turns reach `N`. -/
theorem history_bound_exceeded_counterexample :
    (((ConversationHistory.mk [] 1).add_message "system" "s").add_message
        "user" "u").max_messages = 1 ∧
    (((ConversationHistory.mk [] 1).add_message "system" "s").add_message
        "user" "u").messages.length = 2 := by
  decide

/-- Claim C1 (corrected): provided the history respected the bound before
the append and its `system` turns (including a just-appended one) number
fewer than the configured maximum `N`, an append leaves at most `N` turns
— exactly `N` when the history was full, one more than before when it was
not — and every pre-existing `system` turn is still present. -/
theorem history_trim_bound (h : ConversationHistory) (role content : String)
    (hlen : h.messages.length ≤ h.max_messages)
    (hsys : ((h.messages ++ [Message.mk role content]).filter
        (fun m => m.role == "system")).length < h.max_messages) :
    (h.add_message role content).messages.length ≤ h.max_messages ∧
    (h.messages.length = h.max_messages →
      (h.add_message role content).messages.length = h.max_messages) ∧
    (h.messages.length < h.max_messages →
      (h.add_message role content).messages.length = h.messages.length + 1) ∧
    (∀ m ∈ h.messages, m.role = "system" →
      m ∈ (h.add_message role content).messages) := by
  by_cases hc : h.messages.length + 1 > h.max_messages
  · have hold : h.messages.length = h.max_messages := by omega
    rw [add_message_trim h role content hc]
    have hpart := filter_length_partition (fun m => m.role == "system")
      (h.messages ++ [Message.mk role content])
    set msgs := h.messages ++ [Message.mk role content] with hmsgs
    set S := msgs.filter (fun m => m.role == "system") with hS
    set O := msgs.filter (fun m => m.role != "system") with hO
    have hOO : msgs.filter (fun m => !(m.role == "system")) = O := rfl
    rw [hOO] at hpart
    have hmlen : msgs.length = h.messages.length + 1 := by
      simp [hmsgs]
    have hneg : ¬ (0 ≤ -((h.max_messages : Int) - S.length)) := by omega
    have hslice : pySliceFrom (-((h.max_messages : Int) - S.length)) O =
        O.drop ((O.length : Int) + -((h.max_messages : Int) - S.length)).toNat := by
      unfold pySliceFrom
      rw [if_neg hneg]
    rw [hslice]
    have hlen2 : (S ++ O.drop
        ((O.length : Int) + -((h.max_messages : Int) - S.length)).toNat).length =
        h.max_messages := by
      rw [List.length_append, List.length_drop]
      omega
    refine ⟨by omega, fun _ => hlen2, fun hlt => by omega, ?_⟩
    intro m hm hrole
    apply List.mem_append_left
    apply List.mem_filter.mpr
    exact ⟨List.mem_append_left _ hm, by simp [hrole]⟩
  · have hc' : h.messages.length + 1 ≤ h.max_messages := by omega
    rw [add_message_no_trim h role content hc']
    refine ⟨by simp; omega, fun heq => by omega, fun _ => by simp, ?_⟩
    intro m hm _
    exact List.mem_append_left _ hm

/-- Claim C1, witness: a full two-turn history with maximum 2 stays at
exactly 2 turns after an append. -/
theorem history_trim_bound_witness :
    ((ConversationHistory.mk [Message.mk "user" "a", Message.mk "user" "b"]
        2).add_message "user" "c").messages.length ≤ 2 ∧
    ((ConversationHistory.mk [Message.mk "user" "a", Message.mk "user" "b"]
        2).add_message "user" "c").messages.length = 2 :=
  ⟨(history_trim_bound ⟨[Message.mk "user" "a", Message.mk "user" "b"], 2⟩
      "user" "c" (by decide) (by decide)).1,
   (history_trim_bound ⟨[Message.mk "user" "a", Message.mk "user" "b"], 2⟩
      "user" "c" (by decide) (by decide)).2.1 (by decide)⟩

/-- Claim C2, counterexample: on a turn whose retrieval raises, the
history does not stay at its pre-turn state — the user utterance was
already appended at the top of the loop body. -/
theorem retrieval_failure_history_changed_counterexample :
    (chat_turn (ConversationHistory.mk [] 10) "q" (Except.error ())
        (Except.ok "r")).messages ≠ (ConversationHistory.mk [] 10).messages := by
  decide

/-- Claim C2 (corrected): when retrieval fails, the turn aborts with the
history equal to the pre-turn history plus the appended user utterance
(trimmed as usual); no assistant turn of the aborted turn is added, and
every assistant turn present afterwards was already there before. -/
theorem retrieval_failure_keeps_user_turn (h : ConversationHistory)
    (q : String) (e : Unit) (g : Except Unit String) :
    chat_turn h q (Except.error e) g = h.add_message "user" q ∧
    (h.messages.length < h.max_messages →
      (chat_turn h q (Except.error e) g).messages =
        h.messages ++ [Message.mk "user" q]) ∧
    (∀ m, m.role = "assistant" →
      m ∈ (chat_turn h q (Except.error e) g).messages → m ∈ h.messages) := by
  refine ⟨rfl, ?_, ?_⟩
  · intro hlt
    show (h.add_message "user" q).messages = _
    exact add_message_no_trim h "user" q (by omega)
  · intro m hrole hm
    have hm' : m ∈ h.messages ++ [Message.mk "user" q] :=
      add_message_subset h "user" q hm
    rcases List.mem_append.mp hm' with h1 | h2
    · exact h1
    · have h3 : m = Message.mk "user" q := by simpa using h2
      rw [h3] at hrole
      simp at hrole

/-- Claim C2, witness: from an empty history, a failed-retrieval turn
leaves exactly the user turn. -/
theorem retrieval_failure_keeps_user_turn_witness :
    (chat_turn (ConversationHistory.mk [] 10) "q" (Except.error ())
        (Except.ok "r")).messages = [Message.mk "user" "q"] :=
  (retrieval_failure_keeps_user_turn (ConversationHistory.mk [] 10) "q" ()
      (Except.ok "r")).2.1 (by decide)

/-- Claim C3, counterexample: with more than one user turn in the
conversation, a reformulation that returns empty text makes the search
run on the empty string, not on the raw current utterance. -/
theorem reformulation_no_fallback_counterexample :
    search_query_text [Message.mk "user" "show me laptops",
        Message.mk "assistant" "a", Message.mk "user" "which is cheapest?"]
      "which is cheapest?" (Except.ok "") ≠
      Except.ok "which is cheapest?" := by
  decide

/-- Claim C3 (corrected): when reformulation is triggered its output is
authoritative — the stripped completion text is used as the search query
even when it is empty, and a reformulation exception propagates so that
retrieval is not attempted; there is no fallback to the raw utterance. -/
theorem reformulation_authoritative (conversation : List Message)
    (query s : String) (e : Unit)
    (htrig : (conversation.filter (fun m => m.role == "user")).length > 1) :
    search_query_text conversation query (Except.ok s) =
      Except.ok (pyStrip s) ∧
    search_query_text conversation query (Except.error e) = Except.error e := by
  constructor
  · unfold search_query_text
    rw [if_pos htrig]
  · unfold search_query_text
    rw [if_pos htrig]

/-- Claim C3, witness: a triggered reformulation's stripped output is
used verbatim, and a reformulation error aborts the search. -/
theorem reformulation_authoritative_witness :
    search_query_text [Message.mk "user" "u1", Message.mk "assistant" "a1",
        Message.mk "user" "u2"] "u2" (Except.ok " gaming laptops ") =
      Except.ok "gaming laptops" ∧
    search_query_text [Message.mk "user" "u1", Message.mk "assistant" "a1",
        Message.mk "user" "u2"] "u2" (Except.error ()) = Except.error () :=
  ⟨((reformulation_authoritative [Message.mk "user" "u1",
      Message.mk "assistant" "a1", Message.mk "user" "u2"] "u2"
      " gaming laptops " () (by decide)).1).trans (by decide),
   (reformulation_authoritative [Message.mk "user" "u1",
      Message.mk "assistant" "a1", Message.mk "user" "u2"] "u2"
      " gaming laptops " () (by decide)).2⟩

/-- Claim C4 (confirmed): with exactly one user turn in the conversation
(the current opening question, which `chat_loop` appends before searching)
the original utterance is used unchanged and the reformulator's outcome is
ignored; the reformulator output is consulted—and its failure surfaces—
only when the conversation holds more than one user turn. -/
theorem reformulation_bypass (conversation : List Message) (query : String) :
    ((conversation.filter (fun m => m.role == "user")).length = 1 →
      ∀ r, search_query_text conversation query r = Except.ok query) ∧
    ((conversation.filter (fun m => m.role == "user")).length > 1 →
      (∀ s, search_query_text conversation query (Except.ok s) =
        Except.ok (pyStrip s)) ∧
      ∀ e, search_query_text conversation query (Except.error e) =
        Except.error e) := by
  constructor
  · intro hone r
    unfold search_query_text
    rw [if_neg (by omega)]
  · intro htrig
    refine ⟨fun s => ?_, fun e => ?_⟩
    · unfold search_query_text
      rw [if_pos htrig]
    · unfold search_query_text
      rw [if_pos htrig]

/-- Claim C4, witness: an opening question passes through unchanged no
matter what the reformulator would have answered; with two user turns the
reformulator is consulted. -/
theorem reformulation_bypass_witness :
    search_query_text [Message.mk "user" "hello"] "hello"
      (Except.ok "IGNORED") = Except.ok "hello" ∧
    search_query_text [Message.mk "user" "u1", Message.mk "user" "u2"] "u2"
      (Except.error ()) = Except.error () :=
  ⟨(reformulation_bypass [Message.mk "user" "hello"] "hello").1 (by decide)
      (Except.ok "IGNORED"),
   ((reformulation_bypass [Message.mk "user" "u1", Message.mk "user" "u2"]
      "u2").2 (by decide)).2 ()⟩

/-- Claim C5, counterexample: a document with six specification pairs —
the sixth pair is emitted by `format_context` of
03_controlled_responses.py, while the same document through
02_context_chat.py stops after the fifth. -/
theorem controlled_specs_uncapped_counterexample :
    pyIn "k6: v6" (ControlledResponses.format_context
      [{ specifications := some [("k1", "v1"), ("k2", "v2"), ("k3", "v3"),
          ("k4", "v4"), ("k5", "v5"), ("k6", "v6")] }]) = true ∧
    pyIn "k6: v6" (ContextChat.format_context
      [{ specifications := some [("k1", "v1"), ("k2", "v2"), ("k3", "v3"),
          ("k4", "v4"), ("k5", "v5"), ("k6", "v6")] }]) = false := by
  decide

/-- Claim C5 (corrected): in 02_context_chat.py the product block depends
only on the first 5 specification pairs — pairs beyond the fifth never
influence the output — and each of the first 5 pairs' rendered lines
occurs in the block; the cap does not hold for 03_controlled_responses.py,
which emits every pair. -/
theorem context_chat_specs_cap (idx : Nat) (doc : Document) :
    ContextChat.product_info idx doc =
      ContextChat.product_info idx
        { doc with specifications :=
            doc.specifications.map (fun l => l.take 5) } ∧
    (∀ l, doc.specifications = some l → ∀ kv ∈ l.take 5,
      pyIn (ContextChat.specLine kv) (ContextChat.product_info idx doc) = true) := by
  constructor
  · exact cc_specs_take_ext idx doc
  · intro l hl kv hkv
    exact cc_specs_presence idx doc l hl kv hkv

/-- Claim C5, witness: the first specification pair of a six-pair
document is rendered in the 02_context_chat.py block. -/
theorem context_chat_specs_cap_witness :
    pyIn (ContextChat.specLine ("k1", "v1"))
      (ContextChat.product_info 1
        { specifications := some [("k1", "v1"), ("k2", "v2"), ("k3", "v3"),
            ("k4", "v4"), ("k5", "v5"), ("k6", "v6")] }) = true :=
  (context_chat_specs_cap 1
      { specifications := some [("k1", "v1"), ("k2", "v2"), ("k3", "v3"),
          ("k4", "v4"), ("k5", "v5"), ("k6", "v6")] }).2
    [("k1", "v1"), ("k2", "v2"), ("k3", "v3"), ("k4", "v4"), ("k5", "v5"),
     ("k6", "v6")] rfl ("k1", "v1") (by decide)

/-- Claim C6 (confirmed, modelled from the spec): for any rank constant
`k > 0`, a document ranked 1 by both methods of a two-list fusion scores
exactly `2/(k+1)`; a document ranked 1 by one method and absent from the
other scores exactly `1/(k+1)`; and the former strictly exceeds the
latter. -/
theorem rrf_top_rank_dominates (k : ℚ) (hk : 0 < k) :
    (∀ l₁ l₂ : List String, ∀ A : String,
        rankIn A l₁ = some 1 → rankIn A l₂ = some 1 →
        rrfScore k [l₁, l₂] A = 2 / (k + 1)) ∧
    (∀ m₁ m₂ : List String, ∀ B : String,
        (rankIn B m₁ = some 1 ∧ rankIn B m₂ = none) ∨
        (rankIn B m₂ = some 1 ∧ rankIn B m₁ = none) →
        rrfScore k [m₁, m₂] B = 1 / (k + 1)) ∧
    1 / (k + 1) < 2 / (k + 1) := by
  have hk1 : (0:ℚ) < k + 1 := by linarith
  refine ⟨?_, ?_, ?_⟩
  · intro l₁ l₂ A h1 h2
    simp [rrfScore, rrfTerm, h1, h2]
    field_simp
    norm_num
  · intro m₁ m₂ B hB
    rcases hB with ⟨h1, h2⟩ | ⟨h1, h2⟩ <;> simp [rrfScore, rrfTerm, h1, h2]
  · rw [div_lt_div_iff₀ hk1 hk1]
    nlinarith

/-- Claim C6, witness: with `k = 60`, a document ranked 1 in both lists
scores `2/61` and beats a document ranked 1 in a single list, which
scores `1/61`. -/
theorem rrf_top_rank_dominates_witness :
    rrfScore 60 [["A"], ["A", "C"]] "A" = 2 / 61 ∧
    rrfScore 60 [["B"], []] "B" = 1 / 61 ∧
    rrfScore 60 [["B"], []] "B" < rrfScore 60 [["A"], ["A", "C"]] "A" := by
  have h := rrf_top_rank_dominates 60 (by norm_num)
  have hA := h.1 ["A"] ["A", "C"] "A" (by decide) (by decide)
  have hB := h.2.1 ["B"] [] "B" (Or.inl ⟨by decide, rfl⟩)
  refine ⟨hA.trans (by norm_num), hB.trans (by norm_num), ?_⟩
  rw [hA, hB]
  exact h.2.2

/-- Claim C7 (confirmed): both context assemblers return the fixed
sentinel `"No relevant products found in the database."` exactly on the
empty result list, and never on a non-empty one (every non-empty context
starts with a newline, the sentinel does not). -/
theorem empty_retrieval_sentinel :
    ContextChat.format_context [] =
      "No relevant products found in the database." ∧
    ControlledResponses.format_context [] =
      "No relevant products found in the database." ∧
    (∀ (d : Document) (ds : List Document),
      ContextChat.format_context (d :: ds) ≠
        "No relevant products found in the database." ∧
      ControlledResponses.format_context (d :: ds) ≠
        "No relevant products found in the database.") := by
  refine ⟨rfl, rfl, ?_⟩
  intro d ds
  constructor
  · intro h
    have hh := cc_context_head d ds
    rw [h] at hh
    exact absurd hh (by decide)
  · intro h
    have hh := cr_context_head d ds
    rw [h] at hh
    exact absurd hh (by decide)

/-- Claim C8 (confirmed): the validator returns the response unmodified;
`no_superlatives` is `false` whenever the response contains any denylist
word (`best`, `amazing`, `incredible`, `perfect`); and `includes_price`
is `false` whenever the response contains no `$`. -/
theorem validator_reports (answer : String) :
    (ControlledResponses.generate_controlled_response answer).response =
      answer ∧
    (∀ word ∈ (["best", "amazing", "incredible", "perfect"] : List String),
      pyIn word answer = true →
      (ControlledResponses.generate_controlled_response
        answer).followed_rules.no_superlatives = false) ∧
    (pyIn "$" answer = false →
      (ControlledResponses.generate_controlled_response
        answer).followed_rules.includes_price = false) := by
  refine ⟨rfl, ?_, ?_⟩
  · intro word hw hword
    exact validator_no_superlatives answer word hw hword
  · intro hno
    simp [ControlledResponses.generate_controlled_response,
      ControlledResponses.followed_rules, hno]

/-- Claim C8, witness: a response containing `best` and no currency
symbol is returned unmodified with `no_superlatives = false` and
`includes_price = false`. -/
theorem validator_reports_witness :
    (ControlledResponses.generate_controlled_response
        "This is the best laptop").response = "This is the best laptop" ∧
    (ControlledResponses.generate_controlled_response
        "This is the best laptop").followed_rules.no_superlatives = false ∧
    (ControlledResponses.generate_controlled_response
        "This is the best laptop").followed_rules.includes_price = false :=
  ⟨(validator_reports "This is the best laptop").1,
   (validator_reports "This is the best laptop").2.1 "best" (by decide)
     (by decide),
   (validator_reports "This is the best laptop").2.2 (by decide)⟩

/-- Claim C9 (confirmed): whenever an append triggers trimming, the
retained sequence is a block of `system` turns followed by a block of
non-`system` turns; and concretely, a history `[user u1, user u2,
system s]` with maximum 3 becomes `[system s, user u2, user u4]` after
appending `user u4` — the system turn moves in front of `u2`, so the
original interleaving is not preserved. -/
theorem trim_places_system_first :
    (∀ (h : ConversationHistory) (role content : String),
      h.messages.length + 1 > h.max_messages →
      ∃ pre post, (h.add_message role content).messages = pre ++ post ∧
        (∀ m ∈ pre, m.role = "system") ∧ (∀ m ∈ post, m.role ≠ "system")) ∧
    ((ConversationHistory.mk [Message.mk "user" "u1", Message.mk "user" "u2",
        Message.mk "system" "s"] 3).add_message "user" "u4").messages =
      [Message.mk "system" "s", Message.mk "user" "u2",
       Message.mk "user" "u4"] := by
  constructor
  · intro h role content hc
    refine ⟨_, _, add_message_trim h role content hc, ?_, ?_⟩
    · intro m hm
      have := (List.mem_filter.mp hm).2
      simpa using this
    · intro m hm
      have := (List.mem_filter.mp (pySliceFrom_subset _ _ hm)).2
      simpa using this
  · decide

/-- Claim C9, witness: a trim of a `[system, user]` history at maximum 2
splits into a system block followed by a non-system block. -/
theorem trim_places_system_first_witness :
    ∃ pre post,
      ((ConversationHistory.mk [Message.mk "system" "s0",
          Message.mk "user" "u1"] 2).add_message "user" "u2").messages =
        pre ++ post ∧
      (∀ m ∈ pre, m.role = "system") ∧ (∀ m ∈ post, m.role ≠ "system") :=
  trim_places_system_first.1
    ⟨[Message.mk "system" "s0", Message.mk "user" "u1"], 2⟩ "user" "u2"
    (by decide)

/-- Claim C10 (confirmed): context assembly is total on documents with
missing fields — a missing price renders as `$0.00`, a missing name or
description renders as the literal `None`, in both assemblers, and every
document of the input yields its numbered block in the output. -/
theorem assembly_total_on_missing_fields :
    (∀ (idx : Nat) (doc : Document), doc.price = none →
      pyIn "- Price: $0.00" (ContextChat.product_info idx doc) = true ∧
      pyIn "- Price: $0.00" (ControlledResponses.product_info idx doc) = true) ∧
    (∀ (idx : Nat) (doc : Document), doc.name = none →
      pyIn "- Name: None" (ContextChat.product_info idx doc) = true ∧
      pyIn "- Name: None" (ControlledResponses.product_info idx doc) = true) ∧
    (∀ (idx : Nat) (doc : Document), doc.description = none →
      pyIn "- Description: None" (ContextChat.product_info idx doc) = true ∧
      pyIn "- Description: None" (ControlledResponses.product_info idx doc) = true) ∧
    (∀ (docs : List Document) (j : Nat), j < docs.length →
      pyIn ("Product " ++ toString (j + 1) ++ ":")
        (ContextChat.format_context docs) = true) := by
  refine ⟨?_, ?_, ?_, ?_⟩
  · intro idx doc hp
    constructor
    · unfold ContextChat.product_info
      rw [cc_shape_price idx doc, concatAll_merge]
      apply pyIn_concatAll_between
      rw [hp]
      decide
    · unfold ControlledResponses.product_info
      rw [cr_shape_price idx doc, concatAll_merge]
      apply pyIn_concatAll_between
      rw [hp]
      decide
  · intro idx doc hn
    constructor
    · unfold ContextChat.product_info
      rw [cc_shape_name idx doc, concatAll_merge]
      apply pyIn_concatAll_between
      rw [hn]
      decide
    · unfold ControlledResponses.product_info
      rw [cr_shape_name idx doc, concatAll_merge]
      apply pyIn_concatAll_between
      rw [hn]
      decide
  · intro idx doc hd
    constructor
    · unfold ContextChat.product_info
      rw [cc_shape_desc idx doc, concatAll_merge]
      apply pyIn_concatAll_between
      rw [hd]
      decide
    · unfold ControlledResponses.product_info
      rw [cr_shape_desc idx doc, concatAll_merge]
      apply pyIn_concatAll_between
      rw [hd]
      decide
  · intro docs j hj
    have hne : docs.isEmpty = false := by
      cases docs with
      | nil => simp at hj
      | cons x xs => rfl
    have hfc : ContextChat.format_context docs =
        pyJoin "\n" ((enumFrom 1 docs).map
          (fun p => ContextChat.product_info p.1 p.2)) := by
      simp [ContextChat.format_context, hne]
    rw [hfc]
    have hmem := enumFrom_get_mem 1 docs j hj
    have hmem2 : ContextChat.product_info (1 + j) (docs.get ⟨j, hj⟩) ∈
        (enumFrom 1 docs).map (fun p => ContextChat.product_info p.1 p.2) :=
      List.mem_map_of_mem _ hmem
    rw [show 1 + j = j + 1 from by omega] at hmem2
    exact pyIn_join_of_mem _ hmem2 (cc_header_in_block (j + 1) _)

/-- Claim C10, witness: a document with every field missing renders with
`$0.00` and `None` placeholders, and still produces its numbered block. -/
theorem assembly_total_on_missing_fields_witness :
    pyIn "- Price: $0.00" (ContextChat.product_info 1 {}) = true ∧
    pyIn "- Name: None" (ContextChat.product_info 1 {}) = true ∧
    pyIn "- Description: None" (ControlledResponses.product_info 1 {}) = true ∧
    pyIn ("Product " ++ toString 1 ++ ":")
      (ContextChat.format_context [{}]) = true :=
  ⟨(assembly_total_on_missing_fields.1 1 {} rfl).1,
   (assembly_total_on_missing_fields.2.1 1 {} rfl).1,
   (assembly_total_on_missing_fields.2.2.1 1 {} rfl).2,
   assembly_total_on_missing_fields.2.2.2 [{}] 0 (by decide)⟩

end ESDemo
